import Mathlib

/-!
Verification development for the ZFS metrics-collection module
(`mod-system/zfs_linux.go` of snapserv/nagopher-checks).

The Go code is shallowly embedded: readers become lists of scanned lines
plus an optional trailing scanner error, the filesystem becomes a record of
pure functions (glob, open), `uint64` values become `Nat` with the
`< 2^64` range check made explicit in the integer parser, and Go's
`(value, error)` returns become `Except String` / an explicit result type
that additionally models a runtime panic (out-of-range slice indexing).
-/

namespace ZfsLinux

/-- Outcome of running a piece of Go code that may return a value, return an
error, or crash with a runtime panic (slice index out of range). -/
inductive RunResult (α : Type) where
  | ok (a : α)
  | fail (msg : String)
  | indexOutOfRange
deriving Repr, DecidableEq

/-- A `bufio.Scanner` view of an `io.Reader`: the successfully scanned lines
followed by `scanner.Err()` (`none` = clean EOF, `some e` = a genuine read
error that terminated scanning). -/
structure lineReader where
  lines : List String
  readErr : Option String
deriving Repr, DecidableEq

/-- Accumulator pass of `strings.Fields`: `acc` holds the reversed
characters of the field currently being read. -/
def goFieldsAux : List Char → List Char → List String
  | [], [] => []
  | [], acc => [String.mk acc.reverse]
  | c :: cs, acc =>
    if c.isWhitespace then
      match acc with
      | [] => goFieldsAux cs []
      | _ => String.mk acc.reverse :: goFieldsAux cs []
    else goFieldsAux cs (c :: acc)

/-- `strings.Fields`: split around runs of whitespace, no empty fields. -/
def goFields (s : String) : List String :=
  goFieldsAux s.toList []

/-- `strings.TrimSpace`. -/
def goTrimSpace (s : String) : String :=
  String.mk (((s.toList.dropWhile Char.isWhitespace).reverse.dropWhile
    Char.isWhitespace).reverse)

/-- `strings.ToUpper` (ASCII letters, which is all the state tokens use). -/
def goToUpper (s : String) : String := String.mk (s.toList.map Char.toUpper)

/-- `strconv.ParseUint(s, 10, 64)`: a nonempty string of decimal digits whose
value fits in 64 bits; no signs, no prefixes. The error carries Go's message. -/
def goParseUint64 (s : String) : Except String Nat :=
  if s.toList = [] ∨ ¬ s.toList.all Char.isDigit then
    .error ("strconv.ParseUint: parsing \x22" ++ s ++ "\x22: invalid syntax")
  else
    let v := s.toList.foldl (fun a c => a * 10 + (c.toNat - 48)) 0
    if v < 2 ^ 64 then .ok v
    else .error ("strconv.ParseUint: parsing \x22" ++ s ++ "\x22: value out of range")

/-- `filepath.Join(a, b)` for a cleaned, nonempty `a` and nonempty `b` as
used here (collapses the doubled separator Go's `Clean` would remove). -/
def goFilepathJoin (a b : String) : String :=
  match b.toList with
  | '/' :: _ => a ++ b
  | _ => a ++ "/" ++ b

/-- Split a character list at its last `/`: `some (before, after)`, or `none`
when no `/` occurs. -/
def splitAtLastSlash : List Char → Option (List Char × List Char)
  | [] => none
  | c :: rest =>
    match splitAtLastSlash rest with
    | some (b, a) => some (c :: b, a)
    | none => if c = '/' then some ([], rest) else none

/-- `filepath.Dir` on the cleaned, non-slash-terminated paths produced by
`filepath.Glob`. -/
def filepathDir (p : String) : String :=
  match splitAtLastSlash p.toList with
  | some ([], _) => "/"
  | some (b, _) => String.mk b
  | none => "."

/-- `filepath.Base` on the cleaned, non-slash-terminated paths produced by
`filepath.Glob`. -/
def filepathBase (p : String) : String :=
  match splitAtLastSlash p.toList with
  | some (_, a) => String.mk a
  | none => p

/-- Go map assignment `m[k] = v` on an association-list model of a
`map[string]V`: replace the key's entry if present, otherwise append. -/
def mapInsert {α : Type} (m : List (String × α)) (k : String) (v : α) :
    List (String × α) :=
  match m with
  | [] => [(k, v)]
  | (k', v') :: rest => if k' = k then (k, v) :: rest else (k', v') :: mapInsert rest k v

/-- `const zfsProcBasePath = "/proc/spl/kstat/zfs"` -/
def zfsProcBasePath : String := "/proc/spl/kstat/zfs"

/-- `const zfsProcArcStats = "arcstats"` -/
def zfsProcArcStats : String := "arcstats"

/-- `const zfsPoolPathPattern = "/*/io"` -/
def zfsPoolPathPattern : String := "/*/io"

/-- `zfsTypeUint64 = "4"` -/
def zfsTypeUint64 : String := "4"

/-- The global ARC statistics record (fields as used by `collectGlobal`). -/
structure zfsGlobalStats where
  arcSize : Nat
  arcHits : Nat
  arcMisses : Nat
deriving Repr, DecidableEq

/-- Per-pool I/O counters (fields as set by `parsePoolIOStats`). -/
@[ext]
structure zfsPoolIOStats where
  readCount : Nat
  writeCount : Nat
  bytesRead : Nat
  bytesWritten : Nat
deriving Repr, DecidableEq

/-- The Go zero value of `zfsPoolIOStats`. -/
def zeroPoolIOStats : zfsPoolIOStats := ⟨0, 0, 0, 0⟩

/-- Per-pool statistics: the state token and the I/O counters. -/
structure zfsPoolStats where
  state : String
  io : zfsPoolIOStats
deriving Repr, DecidableEq

/-- The collecting resource object: the global stats record and the
pool-name-to-stats map. A Go `map` can be `nil` (never allocated), hence
`Option`; `none` models the nil map. -/
structure zfsResource where
  globalStats : zfsGlobalStats
  poolStats : Option (List (String × zfsPoolStats))
deriving Repr, DecidableEq

/-- The pseudo-filesystem the collector reads: `filepath.Glob` on a pattern
(`.error` = glob error; Go's Glob returns a nil slice, here `[]`, on zero
matches) and `os.Open` + scanning of a file's content (`.error` = open
failure carrying the `err.Error()` text). -/
structure procFS where
  glob : String → Except String (List String)
  openFile : String → Except String lineReader

/-- `parsePoolState`: read exactly the first scanned line, trim and
upper-case it; no line and a nil scanner error is the distinct EOF error. -/
def parsePoolState (reader : lineReader) : Except String String :=
  match reader.lines with
  | l :: _ => .ok (goToUpper (goTrimSpace l))
  | [] =>
    match reader.readErr with
    | none => .error "could not read state: EOF"
    | some e => .error ("could not read state: " ++ e)

/-- The inner loop of `parsePoolIOStats`: for `index, key := range fields`,
parse `parts[index]` as uint64 and store recognized keys. Indexing past the
end of `parts` is Go's out-of-range panic. -/
def processRow : List String → List String → zfsPoolIOStats → RunResult zfsPoolIOStats
  | [], _, stats => .ok stats
  | _ :: _, [], _ => .indexOutOfRange
  | key :: fs, part :: ps, stats =>
    match goParseUint64 part with
    | .error e => .fail ("could not parse unsigned integer for " ++ key ++ ": " ++ e)
    | .ok value =>
      let stats' :=
        if key = "reads" then { stats with readCount := value }
        else if key = "writes" then { stats with writeCount := value }
        else if key = "nread" then { stats with bytesRead := value }
        else if key = "nwritten" then { stats with bytesWritten := value }
        else stats
      processRow fs ps stats'

/-- The header test of `parsePoolIOStats`: `len(parts) >= 12 && parts[0] == "nread"`. -/
def isIOHeader (parts : List String) : Prop :=
  12 ≤ parts.length ∧ parts.headD "" = "nread"

instance (parts : List String) : Decidable (isIOHeader parts) := by
  unfold isIOHeader; infer_instance

/-- The scanner loop of `parsePoolIOStats` (two-state machine: seeking the
header while `skip`, then zipping each line against the captured schema). -/
def parsePoolIOStatsLoop :
    List String → Bool → List String → zfsPoolIOStats → RunResult zfsPoolIOStats
  | [], _, _, stats => .ok stats
  | l :: rest, skip, fields, stats =>
    let parts := goFields l
    if skip ∧ isIOHeader parts then
      parsePoolIOStatsLoop rest false parts stats
    else if skip then
      parsePoolIOStatsLoop rest skip fields stats
    else
      match processRow fields parts stats with
      | .ok stats' => parsePoolIOStatsLoop rest skip fields stats'
      | .fail e => .fail e
      | .indexOutOfRange => .indexOutOfRange

/-- `parsePoolIOStats`: scan the reader's lines (the scanner error is never
checked by the Go code), starting in the header-seeking state with zero stats. -/
def parsePoolIOStats (reader : lineReader) : RunResult zfsPoolIOStats :=
  parsePoolIOStatsLoop reader.lines true [] zeroPoolIOStats

/-- The scanner loop of `parseGlobalStats`, returning the final
`skipParsing` flag, the metrics map and the warnings added. -/
def parseGlobalStatsLoop :
    List String → Bool → List (String × Nat) → List String →
    Bool × List (String × Nat) × List String
  | [], skip, metrics, ws => (skip, metrics, ws)
  | l :: rest, skip, metrics, ws =>
    let parts := goFields l
    if skip ∧ parts = ["name", "type", "data"] then
      parseGlobalStatsLoop rest false metrics ws
    else if skip ∨ parts.length < 3 then
      parseGlobalStatsLoop rest skip metrics ws
    else
      match parts with
      | key :: type :: value :: _ =>
        if type = zfsTypeUint64 then
          match goParseUint64 value with
          | .error _ =>
            parseGlobalStatsLoop rest skip metrics
              (ws ++ ["could not parse metric [" ++ key ++ "] as uint64: " ++ value])
          | .ok n => parseGlobalStatsLoop rest skip (mapInsert metrics key n) ws
        else parseGlobalStatsLoop rest skip metrics ws
      | _ => parseGlobalStatsLoop rest skip metrics ws

/-- `parseGlobalStats`: metrics map, warnings added to the collection, and
the returned error (`some` iff the header line was never seen). -/
def parseGlobalStats (reader : lineReader) :
    List (String × Nat) × List String × Option String :=
  let r := parseGlobalStatsLoop reader.lines true [] []
  (r.2.1, r.2.2, if r.1 then some "no global statistics have been parsed" else none)

/-- `updatePoolStats`: open the pool's `state` and `io` files (either open
failure returns an error), then parse the state line and the I/O table;
any parse failure returns a contextualized error. -/
def updatePoolStats (fs : procFS) (poolPath : String) : RunResult zfsPoolStats :=
  match fs.openFile (goFilepathJoin poolPath "state") with
  | .error e => .fail ("could not open state file: " ++ e)
  | .ok stateFile =>
    match fs.openFile (goFilepathJoin poolPath "io") with
    | .error e => .fail ("could not open i/o stats file: " ++ e)
    | .ok ioStatsFile =>
      match parsePoolState stateFile with
      | .error e => .fail ("could not gather state: " ++ e)
      | .ok state =>
        match parsePoolIOStats ioStatsFile with
        | .fail e => .fail ("could not gather i/o stats: " ++ e)
        | .indexOutOfRange => .indexOutOfRange
        | .ok io => .ok { state := state, io := io }

/-- The loop of `collectPools`: for each glob match, derive the pool path
and name, gather its stats and insert them into the (already allocated)
map; a per-pool failure returns immediately, leaving the map as built so
far. The returned pair is (final map, returned error). -/
def collectPoolsLoop (fs : procFS) (cur : List (String × zfsPoolStats)) :
    List String → RunResult (List (String × zfsPoolStats) × Option String)
  | [] => .ok (cur, none)
  | globMatch :: rest =>
    let poolPath := filepathDir globMatch
    let poolName := filepathBase poolPath
    match updatePoolStats fs poolPath with
    | .fail e => .ok (cur, some ("could not gather zfs pool statistics: " ++ e))
    | .indexOutOfRange => .indexOutOfRange
    | .ok poolStats => collectPoolsLoop fs (mapInsert cur poolName poolStats) rest

/-- `collectPools`: glob for pools (note: the Go code globs
`filepath.Join(zfsProcBasePath, zfsPoolPathPattern)`, ignoring its
`basePath` parameter), return on a glob error or a nil match list, else
allocate a fresh map and fill it pool by pool. The `.ok` payload is the
resource as left behind plus the returned error. -/
def collectPools (basePath : String) (fs : procFS) (r : zfsResource) :
    RunResult (zfsResource × Option String) :=
  match fs.glob (goFilepathJoin zfsProcBasePath zfsPoolPathPattern) with
  | .error e => .ok (r, some ("could not glob zfs pool paths: " ++ e))
  | .ok [] => .ok (r, none)
  | .ok (globMatch :: rest) =>
    match collectPoolsLoop fs [] (globMatch :: rest) with
    | .ok (m, err) => .ok ({ r with poolStats := some m }, err)
    | .fail e => .fail e
    | .indexOutOfRange => .indexOutOfRange

/-- `collectGlobal`: open `<basePath>/arcstats`; an open failure or a parse
failure is absorbed into one warning; on success copy the `size`, `hits`
and `misses` keys (when present) into the global stats. Returns the
resource as left behind, the warnings added, and the returned error
(always `none`: every path of the Go function returns `nil`). -/
def collectGlobal (basePath : String) (fs : procFS) (r : zfsResource) :
    zfsResource × List String × Option String :=
  match fs.openFile (goFilepathJoin basePath zfsProcArcStats) with
  | .error e => (r, ["could not gather arc statistics: " ++ e], none)
  | .ok file =>
    match parseGlobalStats file with
    | (_, ws, some e) => (r, ws ++ ["could not parse arc statistics: " ++ e], none)
    | (metrics, ws, none) =>
      let g0 := r.globalStats
      let g1 := match metrics.lookup "size" with
        | some v => { g0 with arcSize := v }
        | none => g0
      let g2 := match metrics.lookup "hits" with
        | some v => { g1 with arcHits := v }
        | none => g1
      let g3 := match metrics.lookup "misses" with
        | some v => { g2 with arcMisses := v }
        | none => g2
      ({ r with globalStats := g3 }, ws, none)

/-- `Collect`: run `collectGlobal` then `collectPools`, both on the fixed
base path, propagating the first error. The `.ok` payload is the resource
as left behind, the warnings recorded, and the returned error. -/
def Collect (fs : procFS) (r : zfsResource) :
    RunResult (zfsResource × List String × Option String) :=
  match collectGlobal zfsProcBasePath fs r with
  | (r1, w1, some e) => .ok (r1, w1, some e)
  | (r1, w1, none) =>
    match collectPools zfsProcBasePath fs r1 with
    | .ok (r2, err) => .ok (r2, w1, err)
    | .fail e => .fail e
    | .indexOutOfRange => .indexOutOfRange

/-- A data line is well-formed with respect to the captured column schema:
the line has at least as many fields as the schema, and the field at every
schema position parses as uint64 (the shape of row `processRow` accepts). -/
def rowOk : List String → List String → Bool
  | [], _ => true
  | _ :: _, [] => false
  | _ :: fs, p :: ps => (goParseUint64 p).toOption.isSome && rowOk fs ps

/-- The total-function value of one `processRow` pass: the stats record
with every recognized schema column overwritten by its parsed field
(positions that fail to parse are skipped; under `rowOk` none do). -/
def rowValue : List String → List String → zfsPoolIOStats → zfsPoolIOStats
  | [], _, s => s
  | _ :: _, [], s => s
  | key :: fs, p :: ps, s =>
    match goParseUint64 p with
    | .error _ => rowValue fs ps s
    | .ok v =>
      let s' :=
        if key = "reads" then { s with readCount := v }
        else if key = "writes" then { s with writeCount := v }
        else if key = "nread" then { s with bytesRead := v }
        else if key = "nwritten" then { s with bytesWritten := v }
        else s
      rowValue fs ps s'

/-- The parsed value a row assigns to column `name`: the successfully
parsed field at the last schema position named `name`, if any. -/
def colValue (name : String) : List String → List String → Option Nat
  | [], _ => none
  | _ :: _, [] => none
  | key :: fs, p :: ps =>
    match colValue name fs ps with
    | some v => some v
    | none => if key = name then (goParseUint64 p).toOption else none

/-- The pool map built by the `collectPools` loop over a prefix of matches
on which every pool gathers successfully. -/
def gatherPrefix (fs : procFS) (cur : List (String × zfsPoolStats)) :
    List String → List (String × zfsPoolStats)
  | [] => cur
  | globMatch :: rest =>
    match updatePoolStats fs (filepathDir globMatch) with
    | .ok st =>
      gatherPrefix fs (mapInsert cur (filepathBase (filepathDir globMatch)) st) rest
    | _ => cur

/-! Concrete fixtures used by counterexamples and witnesses. -/

/-- A fresh resource: zero global stats, nil (never-allocated) pool map. -/
def emptyResource : zfsResource := ⟨⟨0, 0, 0⟩, none⟩

/-- A realistic 12-column header line of a `<pool>/io` file. -/
def ioHeaderLine : String :=
  "nread nwritten reads writes wtime wlentime wupdate rtime rlentime rupdate wcnt rcnt"

/-- A well-formed data row for `ioHeaderLine`. -/
def ioDataRow : String := "2048 4096 10 20 1 2 3 4 5 6 7 8"

/-- Another well-formed data row for `ioHeaderLine`. -/
def ioDataRowEarly : String := "1 2 3 4 5 6 7 8 9 10 11 12"

/-- A pseudo-filesystem with pools `alpha` (fully readable) and `beta`
(whose `state` file fails to open); no `arcstats` file. -/
def fsTwoPools : procFS where
  glob := fun p =>
    if p = "/proc/spl/kstat/zfs/*/io" then
      .ok ["/proc/spl/kstat/zfs/alpha/io", "/proc/spl/kstat/zfs/beta/io"]
    else .ok []
  openFile := fun p =>
    if p = "/proc/spl/kstat/zfs/alpha/state" then .ok ⟨["ONLINE"], none⟩
    else if p = "/proc/spl/kstat/zfs/alpha/io" then .ok ⟨[ioHeaderLine, ioDataRow], none⟩
    else .error ("open " ++ p ++ ": no such file or directory")

/-- A pseudo-filesystem with the single fully readable pool `tank`. -/
def fsGoodPool : procFS where
  glob := fun p =>
    if p = "/proc/spl/kstat/zfs/*/io" then .ok ["/proc/spl/kstat/zfs/tank/io"]
    else .ok []
  openFile := fun p =>
    if p = "/proc/spl/kstat/zfs/tank/state" then .ok ⟨["  online"], none⟩
    else if p = "/proc/spl/kstat/zfs/tank/io" then .ok ⟨[ioHeaderLine, ioDataRow], none⟩
    else .error ("open " ++ p ++ ": no such file or directory")

/-- A pseudo-filesystem whose only pool lives under `/tmp`, not under the
fixed ZFS proc base path. -/
def fsTmpPool : procFS where
  glob := fun p => if p = "/tmp/*/io" then .ok ["/tmp/tank/io"] else .ok []
  openFile := fun p => .error ("open " ++ p ++ ": no such file or directory")

/-- A pseudo-filesystem with no pools at all. -/
def fsNoPools : procFS where
  glob := fun _ => .ok []
  openFile := fun p => .error ("open " ++ p ++ ": no such file or directory")

/-- A pseudo-filesystem whose `arcstats` file never contains the
`name type data` header. -/
def fsNoHeaderArc : procFS where
  glob := fun _ => .ok []
  openFile := fun p =>
    if p = "/proc/spl/kstat/zfs/arcstats" then .ok ⟨["junk line", "a b"], none⟩
    else .error ("open " ++ p ++ ": no such file or directory")

/-- A pseudo-filesystem whose pool `p` has an empty `state` file (clean
EOF) and a readable `io` file. -/
def fsEmptyState : procFS where
  glob := fun _ => .ok []
  openFile := fun p =>
    if p = "/pools/p/state" then .ok ⟨[], none⟩
    else if p = "/pools/p/io" then .ok ⟨[ioHeaderLine, ioDataRow], none⟩
    else .error ("open " ++ p ++ ": no such file or directory")

/-- An arbitrary pool-stats value, used to pre-populate a pool map. -/
def dummyPoolStats : zfsPoolStats := ⟨"ONLINE", zeroPoolIOStats⟩

/-! Helper lemmas. -/

/-- While seeking the `name type data` header, lines that are not that
header leave the global-stats loop state untouched. -/
theorem parseGlobalStatsLoop_noHeader (lines : List String)
    (metrics : List (String × Nat)) (ws : List String)
    (h : ∀ l ∈ lines, goFields l ≠ ["name", "type", "data"]) :
    parseGlobalStatsLoop lines true metrics ws = (true, metrics, ws) := by
  induction lines with
  | nil => rfl
  | cons l rest ih =>
    have hl := h l (List.mem_cons_self _ _)
    simp only [parseGlobalStatsLoop]
    rw [if_neg (fun hc => hl hc.2), if_pos (Or.inl trivial)]
    exact ih fun x hx => h x (List.mem_cons_of_mem _ hx)

/-- While seeking the I/O header, lines that never match the header test
leave the I/O loop state untouched. -/
theorem parsePoolIOStatsLoop_noHeader (lines : List String)
    (fields : List String) (stats : zfsPoolIOStats)
    (h : ∀ l ∈ lines, ¬ isIOHeader (goFields l)) :
    parsePoolIOStatsLoop lines true fields stats = .ok stats := by
  induction lines with
  | nil => rfl
  | cons l rest ih =>
    have hl := h l (List.mem_cons_self _ _)
    simp only [parsePoolIOStatsLoop]
    rw [if_neg (fun hc => hl hc.2), if_pos trivial]
    exact ih fun x hx => h x (List.mem_cons_of_mem _ hx)

/-! Claim theorems. -/

/-- C2: the claim that the I/O row zipping never accesses a field position
missing from the line fails on the code: after a valid 12-column header, a
line with fewer fields than the schema (here an empty line) drives
`parts[index]` past the end of the line's fields, Go's index-out-of-range
panic, instead of a returned stats record or error. -/
theorem parsePoolIOStats_short_line_panics :
    parsePoolIOStats ⟨[ioHeaderLine, ""], none⟩ = .indexOutOfRange := by rfl

/-- C7: when no line of the input passes the header test (at least 12
whitespace-separated fields, first field `nread`), `parsePoolIOStats`
returns the zero-valued stats record and no error. -/
theorem parsePoolIOStats_no_header_zero (reader : lineReader)
    (h : ∀ l ∈ reader.lines, ¬ isIOHeader (goFields l)) :
    parsePoolIOStats reader = .ok zeroPoolIOStats :=
  parsePoolIOStatsLoop_noHeader reader.lines [] zeroPoolIOStats h

/-- C7 witness: a stream with lines that never match the header test. -/
theorem parsePoolIOStats_no_header_zero_witness :
    parsePoolIOStats ⟨["nothing here", "a b c"], none⟩ = .ok zeroPoolIOStats :=
  parsePoolIOStats_no_header_zero ⟨["nothing here", "a b c"], none⟩ (by decide)

/-- C9: `parsePoolState` returns the first line trimmed and upper-cased
(so `  online` yields `ONLINE`); an empty input with a nil scanner error
yields the distinct EOF error, a genuine read error is propagated with the
same prefix, and a state-parse error makes `updatePoolStats` fail, which
aborts the pass. -/
theorem parsePoolState_spec :
    (∀ (l : String) (rest : List String) (re : Option String),
      parsePoolState ⟨l :: rest, re⟩ = .ok (goToUpper (goTrimSpace l))) ∧
    parsePoolState ⟨["  online"], none⟩ = .ok "ONLINE" ∧
    parsePoolState ⟨[], none⟩ = .error "could not read state: EOF" ∧
    (∀ e : String, parsePoolState ⟨[], some e⟩ = .error ("could not read state: " ++ e)) ∧
    (∀ (fs : procFS) (poolPath : String) (rd : lineReader),
      fs.openFile (goFilepathJoin poolPath "state") = .ok ⟨[], none⟩ →
      fs.openFile (goFilepathJoin poolPath "io") = .ok rd →
      updatePoolStats fs poolPath = .fail "could not gather state: could not read state: EOF") := by
  refine ⟨fun l rest re => rfl, by rfl, by rfl, fun e => rfl, ?_⟩
  intro fs poolPath rd hstate hio
  unfold updatePoolStats
  rw [hstate, hio]
  rfl

/-- C9 witness: the empty-state pool aborts with the EOF-state error. -/
theorem parsePoolState_spec_witness :
    fsEmptyState.openFile (goFilepathJoin "/pools/p" "state") = .ok ⟨[], none⟩ ∧
    updatePoolStats fsEmptyState "/pools/p" =
      .fail "could not gather state: could not read state: EOF" :=
  ⟨by rfl, parsePoolState_spec.2.2.2.2 fsEmptyState "/pools/p"
    ⟨[ioHeaderLine, ioDataRow], none⟩ (by rfl) (by rfl)⟩

/-- C4: when the discovery glob matches zero paths (Go's `Glob` returns a
nil slice), `collectPools` succeeds and a nil pool map stays nil, which is
distinguishable from a present-but-empty map. -/
theorem collectPools_zero_matches (basePath : String) (fs : procFS) (r : zfsResource)
    (hglob : fs.glob (goFilepathJoin zfsProcBasePath zfsPoolPathPattern) = .ok [])
    (hnil : r.poolStats = none) :
    collectPools basePath fs r = .ok (r, none) ∧
    r.poolStats = none ∧ r.poolStats ≠ some [] := by
  refine ⟨?_, hnil, by rw [hnil]; exact fun hc => Option.noConfusion hc⟩
  unfold collectPools
  rw [hglob]

/-- C4 witness: a poolless filesystem and a fresh resource. -/
theorem collectPools_zero_matches_witness :
    fsNoPools.glob (goFilepathJoin zfsProcBasePath zfsPoolPathPattern) = .ok [] ∧
    emptyResource.poolStats = none ∧
    (collectPools zfsProcBasePath fsNoPools emptyResource = .ok (emptyResource, none) ∧
      emptyResource.poolStats = none ∧ emptyResource.poolStats ≠ some []) :=
  ⟨rfl, rfl,
    collectPools_zero_matches zfsProcBasePath fsNoPools emptyResource rfl rfl⟩

/-- C5: an arcstats stream that never contains the `name type data` header
makes `parseGlobalStats` return the no-statistics error with no metrics
and no row warnings; `collectGlobal` then records exactly one warning,
returns no error, and leaves the resource (all three global-stats fields
included) unchanged. -/
theorem collectGlobal_no_header (basePath : String) (fs : procFS) (r : zfsResource)
    (rd : lineReader)
    (hopen : fs.openFile (goFilepathJoin basePath zfsProcArcStats) = .ok rd)
    (hnh : ∀ l ∈ rd.lines, goFields l ≠ ["name", "type", "data"]) :
    parseGlobalStats rd = ([], [], some "no global statistics have been parsed") ∧
    collectGlobal basePath fs r =
      (r, ["could not parse arc statistics: no global statistics have been parsed"], none) := by
  have hparse : parseGlobalStats rd = ([], [], some "no global statistics have been parsed") := by
    unfold parseGlobalStats
    rw [parseGlobalStatsLoop_noHeader rd.lines [] [] hnh]
    rfl
  refine ⟨hparse, ?_⟩
  unfold collectGlobal
  simp only [hopen, hparse]
  rfl

/-- C5 witness: a headerless arcstats file yields one warning and an
unchanged fresh resource. -/
theorem collectGlobal_no_header_witness :
    fsNoHeaderArc.openFile (goFilepathJoin zfsProcBasePath zfsProcArcStats) =
      .ok ⟨["junk line", "a b"], none⟩ ∧
    collectGlobal zfsProcBasePath fsNoHeaderArc emptyResource =
      (emptyResource,
       ["could not parse arc statistics: no global statistics have been parsed"], none) :=
  ⟨by rfl,
   (collectGlobal_no_header zfsProcBasePath fsNoHeaderArc emptyResource
      ⟨["junk line", "a b"], none⟩ (by rfl) (by decide)).2⟩

/-- Unfolding `collectPools` when the glob yields a nonempty match list. -/
theorem collectPools_glob_ne (basePath : String) (fs : procFS) (r : zfsResource)
    (ms : List String)
    (hglob : fs.glob (goFilepathJoin zfsProcBasePath zfsPoolPathPattern) = .ok ms)
    (hne : ms ≠ []) :
    collectPools basePath fs r =
      match collectPoolsLoop fs [] ms with
      | .ok (m, err) => .ok ({ r with poolStats := some m }, err)
      | .fail e => .fail e
      | .indexOutOfRange => .indexOutOfRange := by
  unfold collectPools
  rw [hglob]
  cases ms with
  | nil => exact absurd rfl hne
  | cons x xs => rfl

/-- The `collectPools` loop on a match list whose prefix gathers cleanly
and whose next pool fails: the loop returns the prefix map and the wrapped
per-pool error. -/
theorem collectPoolsLoop_prefix_fail (fs : procFS)
    (cur : List (String × zfsPoolStats)) (pre : List String) (m : String)
    (post : List String) (e : String)
    (hpre : ∀ p ∈ pre, ∃ st, updatePoolStats fs (filepathDir p) = .ok st)
    (hm : updatePoolStats fs (filepathDir m) = .fail e) :
    collectPoolsLoop fs cur (pre ++ m :: post) =
      .ok (gatherPrefix fs cur pre,
           some ("could not gather zfs pool statistics: " ++ e)) := by
  induction pre generalizing cur with
  | nil =>
    simp only [List.nil_append, collectPoolsLoop, gatherPrefix]
    rw [hm]
  | cons p ps ih =>
    obtain ⟨st, hst⟩ := hpre p (List.mem_cons_self _ _)
    simp only [List.cons_append, collectPoolsLoop, gatherPrefix]
    rw [hst]
    exact ih _ fun q hq => hpre q (List.mem_cons_of_mem _ hq)

/-- C1 counterexample: discovery finds two pools (`alpha`, `beta`); the
second pool's stats gathering fails (its state file does not open), the
whole `Collect` pass returns an error, yet the resource's pool map is left
holding exactly the one pool gathered before the failure — a strict subset
of the discovered pools is observable. -/
theorem collect_partial_map_on_failure :
    fsTwoPools.glob (goFilepathJoin zfsProcBasePath zfsPoolPathPattern) =
      .ok ["/proc/spl/kstat/zfs/alpha/io", "/proc/spl/kstat/zfs/beta/io"] ∧
    Collect fsTwoPools emptyResource =
      .ok ({ globalStats := ⟨0, 0, 0⟩,
             poolStats := some [("alpha", ⟨"ONLINE", ⟨10, 20, 2048, 4096⟩⟩)] },
           ["could not gather arc statistics: open /proc/spl/kstat/zfs/arcstats: no such file or directory"],
           some "could not gather zfs pool statistics: could not open state file: open /proc/spl/kstat/zfs/beta/state: no such file or directory") := by
  exact ⟨by rfl, by rfl⟩

/-- C1 amended: when discovery succeeds but gathering some pool's stats
fails (every earlier match having gathered cleanly), `collectPools`
returns an error — but the resource's pool map is left holding the
partial result built from the matches before the failing one, which the
caller must discard because of the returned error. -/
theorem collectPools_error_keeps_prefix (basePath : String) (fs : procFS)
    (r : zfsResource) (pre : List String) (m : String) (post : List String)
    (e : String)
    (hglob : fs.glob (goFilepathJoin zfsProcBasePath zfsPoolPathPattern) =
      .ok (pre ++ m :: post))
    (hpre : ∀ p ∈ pre, ∃ st, updatePoolStats fs (filepathDir p) = .ok st)
    (hm : updatePoolStats fs (filepathDir m) = .fail e) :
    collectPools basePath fs r =
      .ok ({ r with poolStats := some (gatherPrefix fs [] pre) },
           some ("could not gather zfs pool statistics: " ++ e)) := by
  rw [collectPools_glob_ne basePath fs r _ hglob (by simp)]
  rw [collectPoolsLoop_prefix_fail fs [] pre m post e hpre hm]

/-- C1 amended witness: the two-pool filesystem instantiates the amended
claim with `pre = [alpha]`, the failure at `beta`. -/
theorem collectPools_error_keeps_prefix_witness :
    updatePoolStats fsTwoPools "/proc/spl/kstat/zfs/beta" =
      .fail "could not open state file: open /proc/spl/kstat/zfs/beta/state: no such file or directory" ∧
    collectPools zfsProcBasePath fsTwoPools emptyResource =
      .ok ({ emptyResource with
              poolStats := some (gatherPrefix fsTwoPools [] ["/proc/spl/kstat/zfs/alpha/io"]) },
           some ("could not gather zfs pool statistics: " ++
             "could not open state file: open /proc/spl/kstat/zfs/beta/state: no such file or directory")) :=
  ⟨by rfl,
   collectPools_error_keeps_prefix zfsProcBasePath fsTwoPools emptyResource
     ["/proc/spl/kstat/zfs/alpha/io"] "/proc/spl/kstat/zfs/beta/io" [] _
     (by rfl) (fun p hp => by
        rw [List.mem_singleton] at hp
        exact ⟨⟨"ONLINE", ⟨10, 20, 2048, 4096⟩⟩, by rw [hp]; rfl⟩)
     (by rfl)⟩

/-- C3: the claim that pool discovery globs `<base>/*/io` for the given
base directory fails on the code: `collectPools` ignores its `basePath`
parameter entirely (its result is the same for every base path) and
always globs the fixed `/proc/spl/kstat/zfs/*/io`; with a pool present at
`/tmp/tank/io` and base path `/tmp`, discovery finds nothing. The last
conjunct shows the remainder of the claim does hold: a match's parent
directory name (`tank`) keys the resulting map. -/
theorem collectPools_ignores_basePath :
    (∀ (b b' : String) (fs : procFS) (r : zfsResource),
      collectPools b fs r = collectPools b' fs r) ∧
    fsTmpPool.glob "/tmp/*/io" = .ok ["/tmp/tank/io"] ∧
    collectPools "/tmp" fsTmpPool emptyResource = .ok (emptyResource, none) ∧
    collectPools zfsProcBasePath fsGoodPool emptyResource =
      .ok ({ globalStats := ⟨0, 0, 0⟩,
             poolStats := some [("tank", ⟨"ONLINE", ⟨10, 20, 2048, 4096⟩⟩)] },
           none) :=
  ⟨fun b b' fs r => rfl, by rfl, by rfl, by rfl⟩

/-- C10: zero glob matches return before the pool map is reinitialized, so
the previous map (populated or nil) is retained unchanged; and when at
least one match exists, the map is allocated anew — the outcome does not
depend on the previous pool map at all. -/
theorem collectPools_frame :
    (∀ (b : String) (fs : procFS) (r : zfsResource),
      fs.glob (goFilepathJoin zfsProcBasePath zfsPoolPathPattern) = .ok [] →
      collectPools b fs r = .ok (r, none)) ∧
    (∀ (b : String) (fs : procFS) (r : zfsResource) (m : String) (ms : List String)
      (p₁ p₂ : Option (List (String × zfsPoolStats))),
      fs.glob (goFilepathJoin zfsProcBasePath zfsPoolPathPattern) = .ok (m :: ms) →
      collectPools b fs { r with poolStats := p₁ } =
        collectPools b fs { r with poolStats := p₂ }) := by
  constructor
  · intro b fs r hglob
    unfold collectPools
    rw [hglob]
  · intro b fs r m ms p₁ p₂ hglob
    unfold collectPools
    rw [hglob]

/-- C10 witness: a populated pool map survives a zero-match pass, and with
one match the result is the same whether the previous map was populated
or nil. -/
theorem collectPools_frame_witness :
    fsNoPools.glob (goFilepathJoin zfsProcBasePath zfsPoolPathPattern) = .ok [] ∧
    collectPools zfsProcBasePath fsNoPools
        { emptyResource with poolStats := some [("old", dummyPoolStats)] } =
      .ok ({ emptyResource with poolStats := some [("old", dummyPoolStats)] }, none) ∧
    collectPools zfsProcBasePath fsGoodPool
        { emptyResource with poolStats := some [("old", dummyPoolStats)] } =
      collectPools zfsProcBasePath fsGoodPool
        { emptyResource with poolStats := none } :=
  ⟨rfl,
   collectPools_frame.1 zfsProcBasePath fsNoPools
     { emptyResource with poolStats := some [("old", dummyPoolStats)] } rfl,
   collectPools_frame.2 zfsProcBasePath fsGoodPool emptyResource
     "/proc/spl/kstat/zfs/tank/io" [] (some [("old", dummyPoolStats)]) none rfl⟩

/-- Step: the header line switches the global-stats loop out of skipping. -/
theorem parseGlobalStatsLoop_header (l : String) (rest : List String)
    (metrics : List (String × Nat)) (ws : List String)
    (h : goFields l = ["name", "type", "data"]) :
    parseGlobalStatsLoop (l :: rest) true metrics ws =
      parseGlobalStatsLoop rest false metrics ws := by
  simp only [parseGlobalStatsLoop, h]
  rfl

/-- Step: after the header, a `key 4 value` row with a well-formed value
inserts the parsed value under the key. -/
theorem parseGlobalStatsLoop_row_ok (l : String) (rest : List String)
    (metrics : List (String × Nat)) (ws : List String) (k v : String) (n : Nat)
    (h : goFields l = [k, "4", v]) (hp : goParseUint64 v = .ok n) :
    parseGlobalStatsLoop (l :: rest) false metrics ws =
      parseGlobalStatsLoop rest false (mapInsert metrics k n) ws := by
  simp only [parseGlobalStatsLoop, h, hp]
  rfl

/-- Step: after the header, a `key 4 value` row whose value fails uint64
parsing adds one warning naming the key and raw value and inserts nothing. -/
theorem parseGlobalStatsLoop_row_bad (l : String) (rest : List String)
    (metrics : List (String × Nat)) (ws : List String) (k v e : String)
    (h : goFields l = [k, "4", v]) (hp : goParseUint64 v = .error e) :
    parseGlobalStatsLoop (l :: rest) false metrics ws =
      parseGlobalStatsLoop rest false metrics
        (ws ++ ["could not parse metric [" ++ k ++ "] as uint64: " ++ v]) := by
  simp only [parseGlobalStatsLoop, h, hp]
  rfl

/-- Step: after the header, a three-field row whose type tag is not `4`
contributes nothing, whatever its value text. -/
theorem parseGlobalStatsLoop_row_otherType (l : String) (rest : List String)
    (metrics : List (String × Nat)) (ws : List String) (k tg v : String)
    (h : goFields l = [k, tg, v]) (htg : tg ≠ "4") :
    parseGlobalStatsLoop (l :: rest) false metrics ws =
      parseGlobalStatsLoop rest false metrics ws := by
  simp only [parseGlobalStatsLoop, h]
  rw [if_neg (fun hc => (Bool.false_ne_true hc.1).elim), if_neg (by simp)]
  exact if_neg htg

/-- C6: with a valid header, rows `size`/`hits`/`misses` of type tag `4`
and well-formed values, plus a row with another type tag (any value text)
and a tag-4 row whose value fails to parse, the result map holds exactly
the three keys with their exact parsed values; the other-tag row never
contributes, and the malformed row is omitted with one warning naming its
key and raw value while all correctly parsed sibling rows appear. -/
theorem parseGlobalStats_characterization
    (lh l1 lo lb l2 l3 : String) (s1 s2 s3 sb so ko tg kb : String)
    (v1 v2 v3 : Nat) (eb : String)
    (hh : goFields lh = ["name", "type", "data"])
    (h1 : goFields l1 = ["size", "4", s1]) (hp1 : goParseUint64 s1 = .ok v1)
    (ho : goFields lo = [ko, tg, so]) (htg : tg ≠ "4")
    (hb : goFields lb = [kb, "4", sb]) (hpb : goParseUint64 sb = .error eb)
    (h2 : goFields l2 = ["hits", "4", s2]) (hp2 : goParseUint64 s2 = .ok v2)
    (h3 : goFields l3 = ["misses", "4", s3]) (hp3 : goParseUint64 s3 = .ok v3) :
    parseGlobalStats ⟨[lh, l1, lo, lb, l2, l3], none⟩ =
      ([("size", v1), ("hits", v2), ("misses", v3)],
       ["could not parse metric [" ++ kb ++ "] as uint64: " ++ sb], none) := by
  have hloop : parseGlobalStatsLoop [lh, l1, lo, lb, l2, l3] true [] [] =
      (false, [("size", v1), ("hits", v2), ("misses", v3)],
       ["could not parse metric [" ++ kb ++ "] as uint64: " ++ sb]) := by
    rw [parseGlobalStatsLoop_header lh _ _ _ hh,
      parseGlobalStatsLoop_row_ok l1 _ _ _ "size" s1 v1 h1 hp1,
      parseGlobalStatsLoop_row_otherType lo _ _ _ ko tg so ho htg,
      parseGlobalStatsLoop_row_bad lb _ _ _ kb sb eb hb hpb,
      parseGlobalStatsLoop_row_ok l2 _ _ _ "hits" s2 v2 h2 hp2,
      parseGlobalStatsLoop_row_ok l3 _ _ _ "misses" s3 v3 h3 hp3]
    rfl
  unfold parseGlobalStats
  dsimp only
  rw [hloop]
  rfl

/-- C6 witness: a concrete arcstats stream exercising all row kinds. -/
theorem parseGlobalStats_characterization_witness :
    goFields "name type data" = ["name", "type", "data"] ∧
    goParseUint64 "1024" = .ok 1024 ∧
    goFields "other 3 zzz" = ["other", "3", "zzz"] ∧
    goParseUint64 "xx" = .error "strconv.ParseUint: parsing \x22xx\x22: invalid syntax" ∧
    parseGlobalStats
        ⟨["name type data", "size 4 1024", "other 3 zzz", "bad 4 xx",
          "hits 4 50", "misses 4 5"], none⟩ =
      ([("size", 1024), ("hits", 50), ("misses", 5)],
       ["could not parse metric [bad] as uint64: xx"], none) :=
  ⟨by rfl, by rfl, by rfl, by rfl,
   parseGlobalStats_characterization
     "name type data" "size 4 1024" "other 3 zzz" "bad 4 xx" "hits 4 50" "misses 4 5"
     "1024" "50" "5" "xx" "zzz" "other" "3" "bad" 1024 50 5
     "strconv.ParseUint: parsing \x22xx\x22: invalid syntax"
     (by rfl) (by rfl) (by rfl) (by rfl) (by decide) (by rfl) (by rfl)
     (by rfl) (by rfl) (by rfl) (by rfl)⟩

/-- On a row accepted by `rowOk`, `processRow` succeeds and computes
`rowValue`. -/
theorem processRow_rowOk (fields parts : List String) (s : zfsPoolIOStats)
    (h : rowOk fields parts = true) :
    processRow fields parts s = .ok (rowValue fields parts s) := by
  induction fields generalizing parts s with
  | nil => cases parts <;> rfl
  | cons key fs ih =>
    cases parts with
    | nil => simp [rowOk] at h
    | cons p ps =>
      simp only [rowOk, Bool.and_eq_true] at h
      obtain ⟨hp, h'⟩ := h
      simp only [processRow, rowValue]
      cases hp2 : goParseUint64 p with
      | error e => rw [hp2] at hp; simp [Except.toOption] at hp
      | ok v => exact ih _ _ h'

/-- The `readCount` a row pass leaves behind: the row's `reads` column
value when assigned, the incoming value otherwise. -/
theorem rowValue_readCount (fields parts : List String) (s : zfsPoolIOStats) :
    (rowValue fields parts s).readCount =
      (colValue "reads" fields parts).getD s.readCount := by
  induction fields generalizing parts s with
  | nil => cases parts <;> rfl
  | cons key fs ih =>
    cases parts with
    | nil => rfl
    | cons p ps =>
      simp only [rowValue, colValue]
      cases hp : goParseUint64 p with
      | error e =>
        rw [ih ps s]
        cases hcv : colValue "reads" fs ps <;> simp [Except.toOption]
      | ok v =>
        rw [ih]
        cases hcv : colValue "reads" fs ps with
        | some w => simp
        | none =>
          by_cases hk : key = "reads"
          · simp [hk, Except.toOption]
          · simp only [if_neg hk, Option.getD_none]
            split
            · rfl
            · split
              · rfl
              · split <;> rfl

/-- The `writeCount` analogue of `rowValue_readCount`. -/
theorem rowValue_writeCount (fields parts : List String) (s : zfsPoolIOStats) :
    (rowValue fields parts s).writeCount =
      (colValue "writes" fields parts).getD s.writeCount := by
  induction fields generalizing parts s with
  | nil => cases parts <;> rfl
  | cons key fs ih =>
    cases parts with
    | nil => rfl
    | cons p ps =>
      simp only [rowValue, colValue]
      cases hp : goParseUint64 p with
      | error e =>
        rw [ih ps s]
        cases hcv : colValue "writes" fs ps <;> simp [Except.toOption]
      | ok v =>
        rw [ih]
        cases hcv : colValue "writes" fs ps with
        | some w => simp
        | none =>
          by_cases hk : key = "writes"
          · simp [hk, Except.toOption]
          · simp only [if_neg hk, Option.getD_none]
            split
            · rfl
            · split
              · rfl
              · split <;> rfl

/-- The `bytesRead` analogue of `rowValue_readCount`. -/
theorem rowValue_bytesRead (fields parts : List String) (s : zfsPoolIOStats) :
    (rowValue fields parts s).bytesRead =
      (colValue "nread" fields parts).getD s.bytesRead := by
  induction fields generalizing parts s with
  | nil => cases parts <;> rfl
  | cons key fs ih =>
    cases parts with
    | nil => rfl
    | cons p ps =>
      simp only [rowValue, colValue]
      cases hp : goParseUint64 p with
      | error e =>
        rw [ih ps s]
        cases hcv : colValue "nread" fs ps <;> simp [Except.toOption]
      | ok v =>
        rw [ih]
        cases hcv : colValue "nread" fs ps with
        | some w => simp
        | none =>
          by_cases hk : key = "nread"
          · simp [hk, Except.toOption]
          · simp only [if_neg hk, Option.getD_none]
            split
            · rfl
            · split
              · rfl
              · split <;> rfl

/-- The `bytesWritten` analogue of `rowValue_readCount`. -/
theorem rowValue_bytesWritten (fields parts : List String) (s : zfsPoolIOStats) :
    (rowValue fields parts s).bytesWritten =
      (colValue "nwritten" fields parts).getD s.bytesWritten := by
  induction fields generalizing parts s with
  | nil => cases parts <;> rfl
  | cons key fs ih =>
    cases parts with
    | nil => rfl
    | cons p ps =>
      simp only [rowValue, colValue]
      cases hp : goParseUint64 p with
      | error e =>
        rw [ih ps s]
        cases hcv : colValue "nwritten" fs ps <;> simp [Except.toOption]
      | ok v =>
        rw [ih]
        cases hcv : colValue "nwritten" fs ps with
        | some w => simp
        | none =>
          by_cases hk : key = "nwritten"
          · simp [hk, Except.toOption]
          · simp only [if_neg hk, Option.getD_none]
            split
            · rfl
            · split
              · rfl
              · split <;> rfl

/-- A column name absent from the schema never gets a value. -/
theorem colValue_not_mem (name : String) (fields parts : List String)
    (h : name ∉ fields) : colValue name fields parts = none := by
  induction fields generalizing parts with
  | nil => cases parts <;> rfl
  | cons key fs ih =>
    have h1 : name ≠ key := fun he => h (List.mem_cons.mpr (Or.inl he))
    have h2 : name ∉ fs := fun hm => h (List.mem_cons.mpr (Or.inr hm))
    cases parts with
    | nil => rfl
    | cons p ps =>
      simp only [colValue]
      rw [ih ps h2, if_neg (fun hk => h1 hk.symm)]

/-- On a row accepted by `rowOk`, a schema column only lacks a value when
its name is absent from the schema. -/
theorem colValue_none_not_mem (name : String) (fields parts : List String)
    (hok : rowOk fields parts = true)
    (hcv : colValue name fields parts = none) : name ∉ fields := by
  induction fields generalizing parts with
  | nil => simp
  | cons key fs ih =>
    cases parts with
    | nil => simp [rowOk] at hok
    | cons p ps =>
      simp only [rowOk, Bool.and_eq_true] at hok
      obtain ⟨hp, hok'⟩ := hok
      simp only [colValue] at hcv
      cases hcv2 : colValue name fs ps with
      | some w => rw [hcv2] at hcv; exact absurd hcv (by simp)
      | none =>
        rw [hcv2] at hcv
        intro hmem
        rcases List.mem_cons.mp hmem with he | hm
        · rw [if_pos he.symm] at hcv
          cases hq : goParseUint64 p with
          | error e2 => rw [hq] at hp; simp [Except.toOption] at hp
          | ok w => rw [hq] at hcv; simp [Except.toOption] at hcv
        · exact ih ps hok' hcv2 hm

/-- Folding row passes over any rows leaves `readCount` unchanged when the
schema lacks a `reads` column. -/
theorem foldRows_readCount (fields : List String) (rows : List String)
    (s : zfsPoolIOStats) (h : "reads" ∉ fields) :
    (rows.foldl (fun acc r => rowValue fields (goFields r) acc) s).readCount =
      s.readCount := by
  induction rows generalizing s with
  | nil => rfl
  | cons r rest ih =>
    simp only [List.foldl]
    rw [ih, rowValue_readCount, colValue_not_mem "reads" fields _ h]
    rfl

/-- The `writeCount` analogue of `foldRows_readCount`. -/
theorem foldRows_writeCount (fields : List String) (rows : List String)
    (s : zfsPoolIOStats) (h : "writes" ∉ fields) :
    (rows.foldl (fun acc r => rowValue fields (goFields r) acc) s).writeCount =
      s.writeCount := by
  induction rows generalizing s with
  | nil => rfl
  | cons r rest ih =>
    simp only [List.foldl]
    rw [ih, rowValue_writeCount, colValue_not_mem "writes" fields _ h]
    rfl

/-- The `bytesRead` analogue of `foldRows_readCount`. -/
theorem foldRows_bytesRead (fields : List String) (rows : List String)
    (s : zfsPoolIOStats) (h : "nread" ∉ fields) :
    (rows.foldl (fun acc r => rowValue fields (goFields r) acc) s).bytesRead =
      s.bytesRead := by
  induction rows generalizing s with
  | nil => rfl
  | cons r rest ih =>
    simp only [List.foldl]
    rw [ih, rowValue_bytesRead, colValue_not_mem "nread" fields _ h]
    rfl

/-- The `bytesWritten` analogue of `foldRows_readCount`. -/
theorem foldRows_bytesWritten (fields : List String) (rows : List String)
    (s : zfsPoolIOStats) (h : "nwritten" ∉ fields) :
    (rows.foldl (fun acc r => rowValue fields (goFields r) acc) s).bytesWritten =
      s.bytesWritten := by
  induction rows generalizing s with
  | nil => rfl
  | cons r rest ih =>
    simp only [List.foldl]
    rw [ih, rowValue_bytesWritten, colValue_not_mem "nwritten" fields _ h]
    rfl

/-- Step: a line passing the header test captures the schema and leaves
the seeking state. -/
theorem parsePoolIOStatsLoop_header_step (l : String) (rest : List String)
    (fields : List String) (stats : zfsPoolIOStats)
    (h : isIOHeader (goFields l)) :
    parsePoolIOStatsLoop (l :: rest) true fields stats =
      parsePoolIOStatsLoop rest false (goFields l) stats := by
  simp only [parsePoolIOStatsLoop]
  rw [if_pos ⟨trivial, h⟩]

/-- In the reading-rows state, well-formed rows fold `rowValue` passes
over the stats record. -/
theorem parsePoolIOStatsLoop_rows (rows : List String) (fields : List String)
    (s : zfsPoolIOStats)
    (h : ∀ r ∈ rows, rowOk fields (goFields r) = true) :
    parsePoolIOStatsLoop rows false fields s =
      .ok (rows.foldl (fun acc r => rowValue fields (goFields r) acc) s) := by
  induction rows generalizing s with
  | nil => rfl
  | cons r rest ih =>
    have hr := h r (List.mem_cons_self _ _)
    simp only [parsePoolIOStatsLoop, List.foldl]
    rw [if_neg (by simp), if_neg (by simp),
      processRow_rowOk fields (goFields r) s hr]
    exact ih _ fun q hq => h q (List.mem_cons_of_mem _ hq)

/-- C8: with a valid header and two or more well-formed data rows, the
result equals the parse of the last row alone (earlier rows are
overwritten, nothing is aggregated), and each recognized column of that
result holds the value parsed from the last row at that column's
position. -/
theorem parsePoolIOStats_last_row_wins (lh lastRow : String)
    (rows : List String) (re re' : Option String)
    (hh : isIOHeader (goFields lh))
    (hrows : ∀ r ∈ rows, rowOk (goFields lh) (goFields r) = true)
    (hlast : rowOk (goFields lh) (goFields lastRow) = true) :
    parsePoolIOStats ⟨lh :: (rows ++ [lastRow]), re⟩ =
      parsePoolIOStats ⟨lh :: [lastRow], re'⟩ ∧
    parsePoolIOStats ⟨lh :: [lastRow], re'⟩ =
      .ok (rowValue (goFields lh) (goFields lastRow) zeroPoolIOStats) ∧
    (∀ v, colValue "reads" (goFields lh) (goFields lastRow) = some v →
      (rowValue (goFields lh) (goFields lastRow) zeroPoolIOStats).readCount = v) ∧
    (∀ v, colValue "writes" (goFields lh) (goFields lastRow) = some v →
      (rowValue (goFields lh) (goFields lastRow) zeroPoolIOStats).writeCount = v) ∧
    (∀ v, colValue "nread" (goFields lh) (goFields lastRow) = some v →
      (rowValue (goFields lh) (goFields lastRow) zeroPoolIOStats).bytesRead = v) ∧
    (∀ v, colValue "nwritten" (goFields lh) (goFields lastRow) = some v →
      (rowValue (goFields lh) (goFields lastRow) zeroPoolIOStats).bytesWritten = v) := by
  have hall : ∀ r ∈ rows ++ [lastRow], rowOk (goFields lh) (goFields r) = true := by
    intro r hr
    rcases List.mem_append.mp hr with hm | hm
    · exact hrows r hm
    · rw [List.mem_singleton.mp hm]; exact hlast
  have hbig : parsePoolIOStats ⟨lh :: (rows ++ [lastRow]), re⟩ =
      .ok (rowValue (goFields lh) (goFields lastRow)
        (rows.foldl (fun acc r => rowValue (goFields lh) (goFields r) acc)
          zeroPoolIOStats)) := by
    unfold parsePoolIOStats
    dsimp only
    rw [parsePoolIOStatsLoop_header_step lh _ [] zeroPoolIOStats hh,
      parsePoolIOStatsLoop_rows _ _ _ hall, List.foldl_append]
    rfl
  have hsmall : parsePoolIOStats ⟨lh :: [lastRow], re'⟩ =
      .ok (rowValue (goFields lh) (goFields lastRow) zeroPoolIOStats) := by
    unfold parsePoolIOStats
    dsimp only
    rw [parsePoolIOStatsLoop_header_step lh _ [] zeroPoolIOStats hh,
      parsePoolIOStatsLoop_rows _ _ _
        (fun r hr => by rw [List.mem_singleton.mp hr]; exact hlast)]
    rfl
  have hrec : rowValue (goFields lh) (goFields lastRow)
      (rows.foldl (fun acc r => rowValue (goFields lh) (goFields r) acc)
        zeroPoolIOStats) =
      rowValue (goFields lh) (goFields lastRow) zeroPoolIOStats := by
    ext
    · rw [rowValue_readCount, rowValue_readCount]
      cases hcv : colValue "reads" (goFields lh) (goFields lastRow) with
      | some w => rfl
      | none =>
        have hnm := colValue_none_not_mem "reads" _ _ hlast hcv
        simp only [Option.getD_none]
        exact foldRows_readCount _ rows zeroPoolIOStats hnm
    · rw [rowValue_writeCount, rowValue_writeCount]
      cases hcv : colValue "writes" (goFields lh) (goFields lastRow) with
      | some w => rfl
      | none =>
        have hnm := colValue_none_not_mem "writes" _ _ hlast hcv
        simp only [Option.getD_none]
        exact foldRows_writeCount _ rows zeroPoolIOStats hnm
    · rw [rowValue_bytesRead, rowValue_bytesRead]
      cases hcv : colValue "nread" (goFields lh) (goFields lastRow) with
      | some w => rfl
      | none =>
        have hnm := colValue_none_not_mem "nread" _ _ hlast hcv
        simp only [Option.getD_none]
        exact foldRows_bytesRead _ rows zeroPoolIOStats hnm
    · rw [rowValue_bytesWritten, rowValue_bytesWritten]
      cases hcv : colValue "nwritten" (goFields lh) (goFields lastRow) with
      | some w => rfl
      | none =>
        have hnm := colValue_none_not_mem "nwritten" _ _ hlast hcv
        simp only [Option.getD_none]
        exact foldRows_bytesWritten _ rows zeroPoolIOStats hnm
  refine ⟨by rw [hbig, hsmall, hrec], hsmall, ?_, ?_, ?_, ?_⟩
  · intro v hv; rw [rowValue_readCount, hv]; rfl
  · intro v hv; rw [rowValue_writeCount, hv]; rfl
  · intro v hv; rw [rowValue_bytesRead, hv]; rfl
  · intro v hv; rw [rowValue_bytesWritten, hv]; rfl

/-- C8 witness: a header and two data rows; only the second row's values
survive. -/
theorem parsePoolIOStats_last_row_wins_witness :
    isIOHeader (goFields ioHeaderLine) ∧
    rowOk (goFields ioHeaderLine) (goFields ioDataRowEarly) = true ∧
    rowOk (goFields ioHeaderLine) (goFields ioDataRow) = true ∧
    parsePoolIOStats ⟨[ioHeaderLine, ioDataRowEarly, ioDataRow], none⟩ =
      parsePoolIOStats ⟨[ioHeaderLine, ioDataRow], none⟩ ∧
    parsePoolIOStats ⟨[ioHeaderLine, ioDataRowEarly, ioDataRow], none⟩ =
      .ok ⟨10, 20, 2048, 4096⟩ ∧
    colValue "reads" (goFields ioHeaderLine) (goFields ioDataRow) = some 10 ∧
    colValue "writes" (goFields ioHeaderLine) (goFields ioDataRow) = some 20 ∧
    colValue "nread" (goFields ioHeaderLine) (goFields ioDataRow) = some 2048 ∧
    colValue "nwritten" (goFields ioHeaderLine) (goFields ioDataRow) = some 4096 :=
  ⟨by decide, by decide, by decide,
   (parsePoolIOStats_last_row_wins ioHeaderLine ioDataRow [ioDataRowEarly]
      none none (by decide) (by decide) (by decide)).1,
   by rfl, by rfl, by rfl, by rfl, by rfl⟩

end ZfsLinux
